import Mathlib

/-!
Verification of emersion/go-varlink against its specification.

Shallow embedding of:
- the message codec (src/varlink.go, `conn.writeMessage` / `conn.readMessage`),
- the client multiplexer (src/client.go),
- the server call state machine (src/server.go),
- the interface-definition parser (varlinkdef, src/unnamed/part_003).

Go byte streams are modelled as `List Char` (all wire data here is ASCII plus
the NUL delimiter); Go errors are modelled by explicit error inductives.
-/

namespace Varlink

/-! ## Message codec (src/varlink.go lines 44-65) -/

/-- A JSON value, the message payload handed to `json.Marshal` via
`json.Encoder.Encode` on the write side. -/
inductive Json where
  | null
  | bool (b : Bool)
  | num (n : Int)
  | str (s : String)
  | arr (xs : List Json)
  | obj (fields : List (String × Json))

/-- The NUL delimiter byte. -/
def nulChar : Char := Char.ofNat 0

/-- An opening curly bracket. -/
def lbrace : Char := Char.ofNat 123

/-- A closing curly bracket. -/
def rbrace : Char := Char.ofNat 125

/-- JSON string escaping for the quote and backslash characters (other
characters are emitted verbatim; the wire data in the claims is ASCII without
control characters, where Go's encoder also emits them verbatim). -/
def escapeChar (c : Char) : List Char :=
  if c = '"' ∨ c = '\\' then ['\\', c] else [c]

/-- Compact JSON serialization, as produced by Go's `json.Marshal` for the
message structs (no extra whitespace). -/
def marshalJson : Json → List Char
  | .null => ("null").toList
  | .bool b => if b then ("true").toList else ("false").toList
  | .num n => (toString n).toList
  | .str s => '"' :: (s.toList.flatMap escapeChar) ++ ['"']
  | .arr xs => '[' :: (marshalList xs) ++ [']']
  | .obj fs => lbrace :: (marshalFields fs) ++ [rbrace]
where
  marshalList : List Json → List Char
    | [] => []
    | [x] => marshalJson x
    | x :: xs => marshalJson x ++ ',' :: marshalList xs
  marshalFields : List (String × Json) → List Char
    | [] => []
    | [(k, v)] => '"' :: k.toList ++ '"' :: ':' :: marshalJson v
    | (k, v) :: fs => '"' :: k.toList ++ '"' :: ':' :: marshalJson v ++ ',' :: marshalFields fs

/-- Errors of the codec layer. -/
inductive CodecErr where
  | eof
  | badDelimiter (b : Nat)   -- "varlink: expected NUL delimiter, got %v"
  | decodeErr                -- json decode failure
  | fuel
deriving DecidableEq

/-- JSON whitespace, as skipped by Go's scanner. -/
def isJsonWS (c : Char) : Bool :=
  c = ' ' || c = '\t' || c = '\r' || c = '\n'

def isNumByte (c : Char) : Bool :=
  ('0' ≤ c && c ≤ '9') || c = '-' || c = '+' || c = '.' || c = 'e' || c = 'E'

/-- Consume a JSON string body after the opening quote, returning the rest
after the closing quote. -/
def scanStringBody : List Char → Except CodecErr (List Char)
  | [] => .error .eof
  | c :: rest =>
    if c = '"' then .ok rest
    else if c = '\\' then
      match rest with
      | [] => .error .eof
      | _ :: rest' => scanStringBody rest'
    else scanStringBody rest

/-- Consume the longest run of number bytes; Go's scanner leaves the first
byte after the number unconsumed. -/
def scanNumTail : List Char → List Char
  | [] => []
  | c :: rest => if isNumByte c then scanNumTail rest else c :: rest

/-- Check that `pre` is a literal prefix of the input and return the rest. -/
def scanLit : List Char → List Char → Except CodecErr (List Char)
  | [], s => .ok s
  | _ :: _, [] => .error .eof
  | p :: ps, c :: rest => if c = p then scanLit ps rest else .error .decodeErr

mutual

/-- `json.Decoder.Decode`'s consumption behaviour: skip leading whitespace,
then consume exactly one JSON value.  For self-delimiting values (objects,
arrays, strings, literals) the scanner stops immediately after the closing
byte; for numbers it stops at the first non-number byte without consuming it.
Returns the remaining input (what `Decoder.Buffered` would expose). -/
def scanValue (fuel : Nat) (s : List Char) : Except CodecErr (List Char) :=
  match fuel with
  | 0 => .error .fuel
  | fuel + 1 =>
    match s.dropWhile isJsonWS with
    | [] => .error .eof
    | c :: rest =>
      if c = lbrace then scanObject fuel rest
      else if c = '[' then scanArr fuel rest
      else if c = '"' then scanStringBody rest
      else if c = 't' then scanLit (("rue").toList) rest
      else if c = 'f' then scanLit (("alse").toList) rest
      else if c = 'n' then scanLit (("ull").toList) rest
      else if isNumByte c then .ok (scanNumTail rest)
      else .error .decodeErr

/-- Consume the members of an object after the opening brace. -/
def scanObject (fuel : Nat) (s : List Char) : Except CodecErr (List Char) :=
  match fuel with
  | 0 => .error .fuel
  | fuel + 1 =>
    match s.dropWhile isJsonWS with
    | [] => .error .eof
    | c :: rest =>
      if c = rbrace then .ok rest
      else if c = '"' then
        match scanStringBody rest with
        | .error e => .error e
        | .ok afterKey =>
          match afterKey.dropWhile isJsonWS with
          | [] => .error .eof
          | c2 :: rest2 =>
            if c2 = ':' then
              match scanValue fuel rest2 with
              | .error e => .error e
              | .ok afterVal => scanObjectTail fuel afterVal
            else .error .decodeErr
      else .error .decodeErr

/-- After one member: a comma continues the object, a closing brace ends it. -/
def scanObjectTail (fuel : Nat) (s : List Char) : Except CodecErr (List Char) :=
  match fuel with
  | 0 => .error .fuel
  | fuel + 1 =>
    match s.dropWhile isJsonWS with
    | [] => .error .eof
    | c :: rest =>
      if c = rbrace then .ok rest
      else if c = ',' then
        match scanObject fuel rest with
        | r => r
      else .error .decodeErr

/-- Consume the elements of an array after the opening bracket. -/
def scanArr (fuel : Nat) (s : List Char) : Except CodecErr (List Char) :=
  match fuel with
  | 0 => .error .fuel
  | fuel + 1 =>
    match s.dropWhile isJsonWS with
    | [] => .error .eof
    | c :: rest =>
      if c = ']' then .ok rest
      else
        match scanValue fuel (c :: rest) with
        | .error e => .error e
        | .ok afterVal => scanArrTail fuel afterVal

/-- After one element: a comma continues the array, a closing bracket ends it. -/
def scanArrTail (fuel : Nat) (s : List Char) : Except CodecErr (List Char) :=
  match fuel with
  | 0 => .error .fuel
  | fuel + 1 =>
    match s.dropWhile isJsonWS with
    | [] => .error .eof
    | c :: rest =>
      if c = ']' then .ok rest
      else if c = ',' then scanValue fuel rest >>= scanArrTail fuel
      else .error .decodeErr

end

/-- `conn.writeMessage` (src/varlink.go lines 44-52): `enc.Encode(v)` writes
the JSON encoding of `v` followed by a newline character (this trailing
newline is `json.Encoder.Encode`'s documented behaviour), then a single zero
byte is written and the buffer flushed. -/
def writeMessage (v : Json) : List Char :=
  marshalJson v ++ ['\n'] ++ [nulChar]

/-- `conn.readMessage` (src/varlink.go lines 54-65): `dec.Decode(v)` consumes
exactly one JSON value from the stream; then one byte is read from the
decoder's buffered remainder (`io.ReadFull(c.dec.Buffered(), b[:])`) and must
be the zero byte, otherwise the framing error
"varlink: expected NUL delimiter, got %v" is returned.  On success, returns
the consumed value bytes (handed to the JSON unmarshaller) and the rest of
the stream. -/
def readMessage (s : List Char) : Except CodecErr (List Char × List Char) :=
  match scanValue (s.length + 1) s with
  | .error e => .error e
  | .ok rest =>
    match rest with
    | [] => .error .eof
    | b :: rest' =>
      if b = nulChar then .ok (s.take (s.length - rest.length), rest')
      else .error (.badDelimiter b.toNat)

/-! ## Client multiplexer (src/client.go) -/

/-- Client-side errors (Go `error` values reaching the client code paths). -/
inductive VErr where
  | eof                                             -- io.EOF
  | netClosed                                       -- net.ErrClosed
  | varlinkErr (name : String) (params : Option String)  -- *varlink.Error
  | protocol (msg : String)                         -- fmt.Errorf protocol violations
  | ioErr (msg : String)                            -- transport-level failures
deriving DecidableEq

/-- `clientReply` (src/client.go lines 21-25): `Parameters` is a
`json.RawMessage` (which may be nil, modelled as `none`), plus the
`continues` and `error` fields. -/
structure clientReply where
  parameters : Option String := none
  continues : Bool := false
  error : String := ""
deriving DecidableEq

/-- A default reply value (the Go zero value of `clientReply`). -/
instance : Inhabited clientReply := ⟨{}⟩

/-- Events interleaved on one client connection: a submission appends a fresh
delivery channel (identified by a number) to the tail of `c.pending` under
the mutex (src/client.go line 88), a decoded reply is handed to the read
loop's routing step (lines 125-140). -/
inductive ClientEvent where
  | submit (ch : Nat)
  | reply (r : clientReply)

/-- The channels appended by the submit events of an event list, in order. -/
def submits : List ClientEvent → List Nat
  | [] => []
  | .submit ch :: evs => ch :: submits evs
  | .reply _ :: evs => submits evs

/-- The delivery log of the read loop (src/client.go lines 116-141) over a
sequence of events, starting from pending queue `pending`: each reply is
delivered to the channel at the head of the queue, and the head is popped
exactly when the reply is terminal (`!reply.Continues`, line 129-131); a reply
arriving with an empty queue makes the loop stop with
"varlink: received reply without request" (line 136), producing no further
deliveries. -/
def clientRun : List ClientEvent → List Nat → List (Nat × clientReply)
  | [], _ => []
  | .submit ch :: evs, pending => clientRun evs (pending ++ [ch])
  | .reply _ :: _, [] => []
  | .reply r :: evs, ch :: rest =>
    (ch, r) :: clientRun evs (if r.continues then ch :: rest else rest)

/-- Collapse consecutive repeats (helper): `blocksAux prev l` drops leading
elements equal to `prev` and keeps the first of each remaining run. -/
def blocksAux (prev : Nat) : List Nat → List Nat
  | [] => []
  | a :: l => if a = prev then blocksAux prev l else a :: blocksAux a l

/-- The sequence of maximal constant runs of a list: `blocks [1,1,2,1]` is
`[1,2,1]`.  A delivery log interleaves no two calls exactly when the blocks
of its channel projection contain no duplicate. -/
def blocks : List Nat → List Nat
  | [] => []
  | a :: l => a :: blocksAux a l

/-- Number of terminal replies (`continues = false`) in a reply list. -/
def terminalCount (rs : List clientReply) : Nat :=
  rs.countP (fun r => !r.continues)

/-- What a `Next`/`Do` caller observes from one channel receive:
`ok (some p)` means a nil error with the reply parameters `p` unmarshalled
into `out`; `ok none` means a nil error with `out` left unmodified;
`err e` a non-nil error. -/
inductive NextOut where
  | ok (written : Option String)
  | err (e : VErr)
deriving DecidableEq

/-- State of one `ClientCall` plus its delivery channel: `chOpen` models
`cc.ch != nil`; `buf` the replies queued in the channel in arrival order;
`closed` whether the read loop has closed the channel; `cerr` the stored
connection error `c.err`. -/
structure CallState where
  chOpen : Bool := true
  buf : List clientReply := []
  closed : Bool := false
  cerr : Option VErr := none
deriving DecidableEq

/-- `ClientCall.next` (src/client.go lines 203-222): receive one reply from
the channel.  A closed empty channel yields `(false, cc.c.err)` — a nil error
when no connection error is stored — and leaves `out` unmodified; a reply
with a non-empty `error` field yields the structured RPC error; otherwise
`out` is set from the parameters (nil parameters decode as the empty object).
Receiving on an open empty channel blocks, modelled as `none`.
`json.Unmarshal` is abstracted as delivery of the raw parameter bytes. -/
def ClientCall.nextRecv (st : CallState) : Option (Bool × NextOut × CallState) :=
  match st.buf with
  | r :: rest =>
    let st' := { st with buf := rest }
    if r.error ≠ "" then
      some (r.continues, .err (.varlinkErr r.error r.parameters), st')
    else
      some (r.continues, .ok (some (r.parameters.getD ("\x7b\x7d"))), st')
  | [] =>
    if st.closed then
      some (false, match st.cerr with | some e => .err e | none => .ok none, st)
    else none

/-- `ClientCall.Next` (src/client.go lines 191-201): a nil channel reports
`io.EOF`; otherwise receive once and set `cc.ch = nil` when the reply did not
continue.  `none` models a receive that blocks forever. -/
def ClientCall.Next (st : CallState) : Option (NextOut × CallState) :=
  if !st.chOpen then some (.err .eof, st)
  else
    match ClientCall.nextRecv st with
    | none => none
    | some (continues, out, st') => some (out, { st' with chOpen := continues })

/-- Iterate `Next` up to `n` times, collecting the outcomes; a blocking
receive produces no further outcomes. -/
def runNext : Nat → CallState → List NextOut
  | 0, _ => []
  | n + 1, st =>
    match ClientCall.Next st with
    | none => []
    | some (o, st') => o :: runNext n st'

/-- Outcome of `Client.Do` after a successful submission. -/
structure DoOut where
  closedConn : Bool
  result : NextOut
deriving DecidableEq

/-- `Client.Do` (src/client.go lines 144-159), after `c.do` has successfully
queued the call: wait for exactly one reply via `cc.next`; if the reply has
`continues=true` this is a protocol violation — the connection is closed and
"varlink: received continues=true in response to a more=false request" is
returned — otherwise `next`'s outcome is returned as is. -/
def Client.Do (st : CallState) : Option DoOut :=
  match ClientCall.nextRecv st with
  | none => none
  | some (continues, out, _) =>
    if continues then
      some ⟨true, .err (.protocol ("received continues=true in response to a more=false request"))⟩
    else
      some ⟨false, out⟩

/-- Connection-level client state: the FIFO pending queue of delivery
channels and the stored connection error `c.err`. -/
structure ClientState where
  pending : List Nat := []
  err : Option VErr := none
deriving DecidableEq

/-- The read loop's deferred shutdown (src/client.go lines 102-114): the final
read error is recorded as the connection error unless it is `net.ErrClosed`
(local close, lines 119-121, treated as a clean stop: `err = nil`, so `c.err`
is left untouched); every pending delivery channel is closed and the queue
cleared.  Returns the new state and the channels that were closed. -/
def readLoopFinalize (st : ClientState) (readErr : VErr) : ClientState × List Nat :=
  let e : Option VErr := if readErr = .netClosed then none else some readErr
  ({ pending := [],
     err := match e with | some e' => some e' | none => st.err },
   st.pending)

/-- Modelled from the spec: `Client.DoOneway` is referenced by
`cmd/certification/client.go` (line 145) but its definition is not under
`src/`.  Spec §4.2: "Oneway semantics: writes `oneway=true`; no pending entry
is queued, because the server will never answer it; only a write failure is
observable, delivered synchronously to the caller", together with the
submission rule "If the write fails, the error is recorded as the
connection's permanent error, the connection is closed".  `writeResult` is
the outcome of writing the request to the wire. -/
def Client.DoOneway (st : ClientState) (writeResult : Option VErr) :
    Option VErr × ClientState :=
  match st.err with
  | some e => (some e, st)
  | none =>
    match writeResult with
    | some e => (some e, { st with err := some e })
    | none => (none, st)

/-! ## Server call state machine (src/server.go) -/

/-- `ServerRequest` (src/server.go lines 13-19). -/
structure ServerRequest where
  method : String := ""
  parameters : Option String := none
  oneway : Bool := false
  more : Bool := false
  upgrade : Bool := false
deriving DecidableEq

/-- `serverReply` (src/server.go lines 21-25). -/
structure serverReply where
  parameters : Option String := none
  continues : Bool := false
  error : String := ""
deriving DecidableEq

/-- Errors with which `Server.serveConn` terminates a connection. -/
inductive SrvErr where
  | readingRequest (msg : String)
  | upgradeNotImplemented      -- "varlink: connection upgrades not implemented"
  | writingError (msg : String)   -- "writing error: %v"
  | handlingCall (msg : String)   -- "handling call: %v"
  | closeWithReplyNotCalled    -- "varlink: ServerCall.CloseWithReply not called"
deriving DecidableEq

/-- Programming errors returned to the handler by `ServerCall.reply`. -/
inductive CallErr where
  | replyWithoutMore        -- "varlink: ServerCall.Reply called for a request without More set"
  | closeCalledTwice        -- "varlink: ServerCall.CloseWithReply called twice"
deriving DecidableEq

/-- `ServerCall.reply` (src/server.go lines 48-63) for the request `req` and
current `done` flag: a `continues` reply requires the request's `more` flag; a
terminal reply requires `done` to be unset and sets it; for a `oneway` request
the function returns before writing anything to the wire.  Returns the error
visible to the caller, the updated `done` flag, and the wire writes performed
(`conn.writeMessage` is modelled as an infallible append to the wire log). -/
def ServerCall.reply (req : ServerRequest) (done : Bool) (r : serverReply) :
    Option CallErr × Bool × List serverReply :=
  if r.continues then
    if !req.more then (some .replyWithoutMore, done, [])
    else if req.oneway then (none, done, [])
    else (none, done, [r])
  else
    if done then (some .closeCalledTwice, done, [])
    else if req.oneway then (none, true, [])
    else (none, true, [r])

/-- One reply operation invoked by a handler on its `ServerCall`:
`ServerCall.Reply(parameters)` (lines 68-73, a reply with `continues=true`)
or `ServerCall.CloseWithReply(parameters)` (lines 78-80, a terminal reply). -/
inductive HandlerOp where
  | reply (params : Option String)
  | closeWithReply (params : Option String)
deriving DecidableEq

/-- The `serverReply` value each operation passes to `ServerCall.reply`. -/
def HandlerOp.toReply : HandlerOp → serverReply
  | .reply params => { parameters := params, continues := true }
  | .closeWithReply params => { parameters := params }

/-- Whether an operation is a `CloseWithReply` (a terminal reply attempt). -/
def HandlerOp.isCloseWithReply : HandlerOp → Bool
  | .reply _ => false
  | .closeWithReply _ => true

/-- Run a handler's sequence of reply operations, threading the `done` flag
and collecting the wire writes (errors returned by `ServerCall.reply` go back
to the handler, which may keep invoking operations). -/
def runOps (req : ServerRequest) : List HandlerOp → Bool → Bool × List serverReply
  | [], done => (done, [])
  | op :: ops, done =>
    let (_, done', w) := ServerCall.reply req done op.toReply
    let (done'', ws) := runOps req ops done'
    (done'', w ++ ws)

/-- What the handler returns: nil, a `*ServerError` (an application-level RPC
error, recognized by `errors.As`), or any other non-nil error. -/
inductive HandlerRet where
  | ok
  | serverError (name : String) (params : Option String)
  | otherError (msg : String)

/-- What one loop iteration decides: read the next request, or terminate the
connection with an error. -/
inductive LoopOutcome where
  | nextRequest
  | fatal (e : SrvErr)
deriving DecidableEq

/-- Result of one iteration: wire writes plus the loop outcome. -/
structure IterOut where
  wire : List serverReply
  outcome : LoopOutcome
deriving DecidableEq

/-- One iteration of `Server.serveConn` (src/server.go lines 114-153) after a
request has been read successfully: an `upgrade` request fails the connection;
otherwise the handler runs (its reply operations `ops` and return value `ret`
are the handler's interaction); a returned `*ServerError` on a non-oneway
request is sent as a terminal error reply (a failure of that send terminates
the connection), on a oneway request the loop `continue`s immediately; any
other non-nil handler error terminates the connection; finally, a non-oneway
request whose call is not `done` is the must-reply contract violation
"varlink: ServerCall.CloseWithReply not called". -/
def serveIteration (req : ServerRequest) (ops : List HandlerOp) (ret : HandlerRet) : IterOut :=
  if req.upgrade then ⟨[], .fatal .upgradeNotImplemented⟩
  else
    let (done, wire) := runOps req ops false
    match ret with
    | .serverError name params =>
      if req.oneway then ⟨wire, .nextRequest⟩
      else
        match ServerCall.reply req done { parameters := params, error := name } with
        | (some _, _, w) => ⟨wire ++ w, .fatal (.writingError ("ServerCall.CloseWithReply called twice"))⟩
        | (none, done', w) =>
          if !req.oneway && !done' then ⟨wire ++ w, .fatal .closeWithReplyNotCalled⟩
          else ⟨wire ++ w, .nextRequest⟩
    | .otherError msg => ⟨wire, .fatal (.handlingCall msg)⟩
    | .ok =>
      if !req.oneway && !done then ⟨wire, .fatal .closeWithReplyNotCalled⟩
      else ⟨wire, .nextRequest⟩

/-! ## Interface definition parser (varlinkdef, src/unnamed/part_003) -/

namespace varlinkdef

/-- `Kind` (part_003 lines 432-445); the Go type is an `int` whose zero value
is not a valid kind, modelled by the extra `invalid` constructor. -/
inductive Kind where
  | invalid
  | struct
  | enum
  | name
  | bool
  | int
  | float
  | string
  | object
  | array
  | map
deriving DecidableEq

/-- `Type` (part_003 lines 474-481); named `VType` because `Type` is reserved
in Lean.  `Struct` is a Go `map[string]Type`, modelled as an association list
in insertion order; `Inner` is a `*Type`, modelled as an `Option`. -/
structure VType where
  kind : Kind
  nullable : Bool
  inner : Option VType
  name : String
  struct : List (String × VType)
  enum : List String

/-- The Go zero value of `Type`. -/
def VType.zero : VType := ⟨.invalid, false, none, "", [], []⟩

/-- Parse errors: `eof` models `io.EOF` from the reader; `syn` the
`fmt.Errorf` syntax errors; `fuel` is an artifact of the fueled embedding and
is never produced when enough fuel is supplied. -/
inductive ParseErr where
  | eof
  | syn (msg : String)
  | fuel
deriving DecidableEq

/-- Whitespace bytes skipped by the tokenizer (part_003 line 767). -/
def isWS (c : Char) : Bool :=
  c = ' ' || c = '\t' || c = '\r' || c = '\n'

/-- `decoder.skipWhitespace` (part_003 lines 757-778) with
`decoder.skipComment` (lines 745-755) folded in as a comment-mode flag so the
recursion is structural: in comment mode, bytes are skipped until a newline
and end of input is a read error; outside it, whitespace is skipped, `#`
enters comment mode, and end of input returns cleanly. -/
def skipWhitespace : Bool → List Char → Except ParseErr (List Char)
  | false, [] => .ok []
  | true, [] => .error .eof
  | true, c :: rest =>
    if c = '\n' then skipWhitespace false rest else skipWhitespace true rest
  | false, c :: rest =>
    if isWS c then skipWhitespace false rest
    else if c = '#' then skipWhitespace true rest
    else .ok (c :: rest)

/-- The single-character tokens `? ( ) , :` (part_003 line 794). -/
def isTokDelim (c : Char) : Bool :=
  c = '?' || c = '(' || c = ')' || c = ',' || c = ':'

/-- The accumulation loop of `decoder.readToken` (part_003 lines 785-810):
`sb` is the builder.  A delimiter with a non-empty builder is pushed back
(`UnreadByte`); `]` and `>` are appended and end the token (so `[]`,
`[string]` and `->` come out as single tokens); whitespace and `#` are pushed
back; anything else is accumulated.  End of input returns the token if the
builder is non-empty, otherwise the read error `io.EOF`. -/
def readTokenLoop (sb : List Char) : List Char → Except ParseErr (String × List Char)
  | [] => if sb.isEmpty then .error .eof else .ok (String.mk sb, [])
  | c :: rest =>
    if isTokDelim c then
      if sb.isEmpty then .ok (String.mk [c], rest)
      else .ok (String.mk sb, c :: rest)
    else if c = ']' || c = '>' then .ok (String.mk (sb ++ [c]), rest)
    else if isWS c || c = '#' then .ok (String.mk sb, c :: rest)
    else readTokenLoop (sb ++ [c]) rest

/-- `decoder.readToken` (part_003 lines 780-811). -/
def readToken (s : List Char) : Except ParseErr (String × List Char) :=
  match skipWhitespace false s with
  | .error e => .error e
  | .ok s' => readTokenLoop [] s'

/-- `decoder.expectToken` (part_003 lines 813-821): read one token and demand
the expected one; a read error is wrapped into a syntax error. -/
def expectToken (token : String) (s : List Char) : Except ParseErr (List Char) :=
  match readToken s with
  | .error _ => .error (.syn ("in " ++ token ++ ": read error"))
  | .ok (got, rest) =>
    if got = token then .ok rest
    else .error (.syn ("expected " ++ token ++ ", got " ++ got))

/-- `isAlpha` (part_003 lines 1116-1118): ASCII letters of either case. -/
def isAlpha (c : Char) : Bool :=
  ('A' ≤ c && c ≤ 'Z') || ('a' ≤ c && c ≤ 'z')

/-- `isAlphaNum` (part_003 lines 1112-1114). -/
def isAlphaNum (c : Char) : Bool :=
  isAlpha c || ('0' ≤ c && c ≤ '9')

/-- `containsOnly` (part_003 lines 1103-1110). -/
def containsOnly (s : List Char) (f : Char → Bool) : Bool :=
  s.all f

/-- `isName` (part_003 lines 1093-1095): a capitalized identifier. -/
def isName (s : String) : Bool :=
  match s.toList with
  | [] => false
  | c :: rest => ('A' ≤ c && c ≤ 'Z') && containsOnly rest isAlphaNum

/-- `isFieldName` (part_003 lines 1097-1101): a byte string whose first byte
is an ASCII letter (of either case, via `isAlpha`) and whose remaining bytes
are letters, digits or underscores. -/
def isFieldName (s : String) : Bool :=
  match s.toList with
  | [] => false
  | c :: rest => isAlpha c && containsOnly rest (fun ch => isAlphaNum ch || ch = '_')

/-- `parseBasicType` (part_003 lines 1069-1084); returns `Kind.invalid` for
the Go zero kind `0`. -/
def parseBasicType (token : String) : Kind :=
  if token = "bool" then .bool
  else if token = "int" then .int
  else if token = "float" then .float
  else if token = "string" then .string
  else if token = "object" then .object
  else .invalid

mutual

/-- The iteration of `decoder.readStructOrEnum`'s `loop` (part_003 lines
849-917), carrying the partially built `typ`.  On the first member, the next
token after the field-candidate identifier fixes the interpretation
(`,` or `)` — enum; `:` — struct); on later members the fixed kind is
enforced.  `typ.Kind == 0` is `Kind.invalid`. -/
def structOrEnumLoop (fuel : Nat) (typ : VType) (s : List Char) :
    Except ParseErr (VType × List Char) :=
  match fuel with
  | 0 => .error .fuel
  | fuel + 1 =>
    match readToken s with
    | .error _ => .error (.syn ("in struct or enum: read error"))
    | .ok (token, s) =>
      if token = ")" ∧ typ.kind = Kind.invalid then
        .ok ({ typ with kind := .struct, struct := [] }, s)
      else if !(isFieldName token) then
        .error (.syn ("expected field name, got " ++ token))
      else
        let name := token
        match readToken s with
        | .error _ => .error (.syn ("in struct or enum: read error"))
        | .ok (sep, s) =>
          match
            (if typ.kind = Kind.invalid then
              if sep = "," ∨ sep = ")" then .ok { typ with kind := .enum, enum := [] }
              else if sep = ":" then .ok { typ with kind := .struct, struct := [] }
              else .error (.syn ("expected one of , or :, got " ++ sep))
            else
              match typ.kind with
              | .enum =>
                if sep ≠ "," ∧ sep ≠ ")" then .error (.syn ("expected , or ), got " ++ sep))
                else .ok typ
              | .struct =>
                if sep ≠ ":" then .error (.syn ("expected :, got " ++ sep))
                else .ok typ
              | _ => .ok typ : Except ParseErr VType)
          with
          | .error e => .error e
          | .ok typ =>
            match typ.kind with
            | .enum =>
              let typ := { typ with enum := typ.enum ++ [name] }
              if sep = ")" then .ok (typ, s)
              else structOrEnumLoop fuel typ s
            | .struct =>
              match readType fuel s with
              | .error _ => .error (.syn ("in struct: type error"))
              | .ok (t, s) =>
                let typ := { typ with struct := typ.struct ++ [(name, t)] }
                match readToken s with
                | .error _ => .error (.syn ("in struct: read error"))
                | .ok (sep2, s) =>
                  if sep2 = ")" then .ok (typ, s)
                  else if sep2 = "," then structOrEnumLoop fuel typ s
                  else .error (.syn ("expected , or ), got " ++ sep2))
            | _ => .error (.syn ("unreachable kind"))

/-- `decoder.readStructOrEnum` (part_003 lines 843-920): expect `(`, then run
the loop on the zero-valued `typ` (an immediate `)` yields the empty
struct). -/
def readStructOrEnumF (fuel : Nat) (s : List Char) : Except ParseErr (VType × List Char) :=
  match fuel with
  | 0 => .error .fuel
  | fuel + 1 =>
    match expectToken ("(") s with
    | .error e => .error e
    | .ok s => structOrEnumLoop fuel VType.zero s

/-- `decoder.readElementType` (part_003 lines 932-955).  The `token = "("`
case pushes the byte `(` back (`UnreadByte`) and defers to
`readStructOrEnum`, modelled by re-prepending the character. -/
def readElementType (fuel : Nat) (token : String) (s : List Char) :
    Except ParseErr (VType × List Char) :=
  match fuel with
  | 0 => .error .fuel
  | fuel + 1 =>
    match (if token = "" then readToken s else .ok (token, s)) with
    | .error _ => .error (.syn ("in element type: read error"))
    | .ok (token, s) =>
      if parseBasicType token ≠ Kind.invalid then
        .ok ({ VType.zero with kind := parseBasicType token }, s)
      else if token = "(" then
        readStructOrEnumF fuel ('(' :: s)
      else if isName token then
        .ok ({ VType.zero with kind := .name, name := token }, s)
      else
        .error (.syn ("expected element type, got " ++ token))

/-- `decoder.readType` (part_003 lines 957-992): an optional leading `?`
marks the type nullable; `[]` and `[string]` recurse for the element/value
type; anything else is an element type carrying the nullable flag. -/
def readType (fuel : Nat) (s : List Char) : Except ParseErr (VType × List Char) :=
  match fuel with
  | 0 => .error .fuel
  | fuel + 1 =>
    match readToken s with
    | .error _ => .error (.syn ("in type: read error"))
    | .ok (token0, s0) =>
      let nullable := token0 = "?"
      match (if nullable then readToken s0 else .ok (token0, s0)) with
      | .error _ => .error (.syn ("in type: read error"))
      | .ok (token, s) =>
        if token = "[]" then
          match readType fuel s with
          | .error e => .error e
          | .ok (inner, s) =>
            .ok ({ VType.zero with kind := .array, inner := some inner, nullable := nullable }, s)
        else if token = "[string]" then
          match readType fuel s with
          | .error e => .error e
          | .ok (inner, s) =>
            .ok ({ VType.zero with kind := .map, inner := some inner, nullable := nullable }, s)
        else
          match readElementType fuel token s with
          | .error e => .error e
          | .ok (typ, s) => .ok ({ typ with nullable := nullable }, s)

end

/-- Entry point for parsing one parenthesized struct-or-enum literal, with
enough fuel for the input. -/
def readStructOrEnum (s : List Char) : Except ParseErr (VType × List Char) :=
  readStructOrEnumF (s.length + 1) s

/-- Written from the spec's words for claim C9 ("field names are
lowercase-leading identifiers with optional underscores"): first character a
lowercase ASCII letter, the rest letters, digits or underscores.  To be
compared with the source's `isFieldName`. -/
def specFieldName (s : String) : Bool :=
  match s.toList with
  | [] => false
  | c :: rest =>
    ('a' ≤ c && c ≤ 'z') &&
      rest.all (fun ch => isAlphaNum ch || ch = '_')

/-- The amended field-name shape for claim C9: the first character is an
ASCII letter of either case, the remaining characters are letters, digits or
underscores. -/
def amendedFieldName (s : String) : Bool :=
  match s.toList with
  | [] => false
  | c :: rest =>
    (('A' ≤ c && c ≤ 'Z') || ('a' ≤ c && c ≤ 'z')) &&
      rest.all (fun ch =>
        (('A' ≤ ch && ch ≤ 'Z') || ('a' ≤ ch && ch ≤ 'z')) ||
          ('0' ≤ ch && ch ≤ '9') || ch = '_')

end varlinkdef

end Varlink

namespace Varlink

/-! ## Lemmas about the client read loop's routing -/

theorem blocksAux_sublist_of_blocks_sublist {ts l : List Nat} (c : Nat)
    (h : List.Sublist (blocks ts) l) : List.Sublist (blocksAux c ts) l := by
  cases ts with
  | nil => simp [blocksAux]
  | cons a ts' =>
    simp only [blocks] at h
    by_cases hac : a = c
    · subst hac
      simp only [blocksAux, if_pos rfl]
      exact ((List.sublist_cons_self a (blocksAux a ts')).trans h)
    · simpa only [blocksAux, if_neg hac] using h

theorem blocksAux_sublist_of_blocks_sublist_cons {ts l : List Nat} {c : Nat}
    (h : List.Sublist (blocks ts) (c :: l)) : List.Sublist (blocksAux c ts) l := by
  cases ts with
  | nil => simp [blocksAux]
  | cons a ts' =>
    simp only [blocks] at h
    by_cases hac : a = c
    · subst hac
      simp only [blocksAux, if_pos rfl]
      exact List.cons_sublist_cons.mp h
    · rcases List.sublist_cons_iff.mp h with h' | ⟨r, hr, _⟩
      · simpa only [blocksAux, if_neg hac] using h'
      · exact absurd (by simpa using congrArg List.head? hr) hac

/-- The run structure of the delivery log: the consecutive-run heads of the
channels the read loop delivers to form a sublist of the queue contents in
queue order (initial queue first, then submissions in order). -/
theorem blocks_clientRun_sublist :
    ∀ (evs : List ClientEvent) (q : List Nat),
      List.Sublist (blocks ((clientRun evs q).map Prod.fst)) (q ++ submits evs) := by
  intro evs
  induction evs with
  | nil => intro q; simp [clientRun, blocks, submits]
  | cons ev evs ih =>
    intro q
    cases ev with
    | submit ch =>
      simpa [clientRun, submits, List.append_assoc] using ih (q ++ [ch])
    | reply r =>
      cases q with
      | nil => simp [clientRun, blocks, submits]
      | cons ch rest =>
        simp only [clientRun, List.map_cons, blocks, submits, List.cons_append]
        by_cases hc : r.continues
        · simp only [hc, if_pos]
          have h := ih (ch :: rest)
          rw [List.cons_append] at h
          exact List.cons_sublist_cons.mpr
            (blocksAux_sublist_of_blocks_sublist_cons h)
        · simp only [hc, if_neg, Bool.false_eq_true, not_false_iff, ite_false]
          exact List.cons_sublist_cons.mpr
            (blocksAux_sublist_of_blocks_sublist ch (ih rest))

/-- Every delivery is addressed by the count of terminal replies before it:
the k-th reply is delivered to the queue entry whose index is the number of
terminal replies among the first k replies. -/
theorem clientRun_delivery :
    ∀ (rs : List clientReply) (q : List Nat) (k : Nat),
      k < rs.length → terminalCount (rs.take k) < q.length →
      ∃ ch r, q[terminalCount (rs.take k)]? = some ch ∧ rs[k]? = some r ∧
        (clientRun (rs.map ClientEvent.reply) q)[k]? = some (ch, r) := by
  intro rs
  induction rs with
  | nil => intro q k h1 _; simp at h1
  | cons r rs ih =>
    intro q k h1 h2
    cases q with
    | nil => simp at h2
    | cons c qs =>
      cases k with
      | zero =>
        refine ⟨c, r, ?_, by simp, ?_⟩
        · simp [terminalCount]
        · simp [clientRun, List.map_cons]
      | succ k =>
        have h1' : k < rs.length := by simpa using h1
        cases hc : r.continues with
        | true =>
          have hcount : terminalCount ((r :: rs).take (k + 1)) = terminalCount (rs.take k) := by
            simp [terminalCount, List.take_succ_cons, List.countP_cons, hc]
          rw [hcount] at h2 ⊢
          obtain ⟨ch, r', hq, hr, hl⟩ := ih (c :: qs) k h1' h2
          refine ⟨ch, r', hq, by simpa using hr, ?_⟩
          simpa [clientRun, List.map_cons, hc] using hl
        | false =>
          have hcount : terminalCount ((r :: rs).take (k + 1)) = terminalCount (rs.take k) + 1 := by
            simp [terminalCount, List.take_succ_cons, List.countP_cons, hc]
          rw [hcount] at h2 ⊢
          have h2' : terminalCount (rs.take k) < qs.length := by
            simp only [List.length_cons] at h2; omega
          obtain ⟨ch, r', hq, hr, hl⟩ := ih qs k h1' h2'
          refine ⟨ch, r', ?_, by simpa using hr, ?_⟩
          · simpa using hq
          · simpa [clientRun, List.map_cons, hc] using hl

end Varlink


namespace Varlink

/-! ## Lemmas about the server call state machine -/

/-- A handler that never invokes `CloseWithReply` leaves the call's `done`
flag unchanged: `ServerCall.Reply` only ever sends `continues` replies, which
do not touch `done`. -/
theorem runOps_done (req : ServerRequest) :
    ∀ (ops : List HandlerOp) (done : Bool),
      (∀ op ∈ ops, op.isCloseWithReply = false) → (runOps req ops done).1 = done := by
  intro ops
  induction ops with
  | nil => intro done _; rfl
  | cons op ops ih =>
    intro done h
    cases op with
    | reply p =>
      have hrest : ∀ op ∈ ops, op.isCloseWithReply = false :=
        fun o ho => h o (List.mem_cons_of_mem _ ho)
      by_cases hm : req.more <;> by_cases ho : req.oneway <;>
        simp [runOps, HandlerOp.toReply, ServerCall.reply, hm, ho, ih done hrest]
    | closeWithReply p =>
      exact absurd (h _ (List.mem_cons_self _ _)) (by simp [HandlerOp.isCloseWithReply])

/-- On a oneway request, `ServerCall.reply` never writes to the wire. -/
theorem reply_oneway_wire (req : ServerRequest) (done : Bool) (r : serverReply)
    (h : req.oneway = true) : (ServerCall.reply req done r).2.2 = [] := by
  cases hc : r.continues <;> by_cases hm : req.more <;> by_cases hd : done <;>
    simp [ServerCall.reply, h, hc, hm, hd]

/-- On a oneway request, no sequence of handler reply operations writes to
the wire. -/
theorem runOps_oneway_wire (req : ServerRequest) (h : req.oneway = true) :
    ∀ (ops : List HandlerOp) (done : Bool), (runOps req ops done).2 = [] := by
  intro ops
  induction ops with
  | nil => intro done; rfl
  | cons op ops ih =>
    intro done
    have hw := reply_oneway_wire req done op.toReply h
    simp only [runOps]
    cases hr : ServerCall.reply req done op.toReply with
    | mk e rest =>
      cases rest with
      | mk done' w =>
        have : w = [] := by simpa [hr] using hw
        subst this
        simp [ih done']

/-! ## Lemmas about the client call handle -/

/-- Once the handle's channel reference is nil, every further `Next` reports
`io.EOF` and the state never changes. -/
theorem runNext_closedHandle :
    ∀ (k : Nat) (st : CallState), st.chOpen = false →
      runNext k st = List.replicate k (.err .eof) := by
  intro k
  induction k with
  | zero => intro st _; rfl
  | succ k ih =>
    intro st h
    simp [runNext, ClientCall.Next, h, ih st h, List.replicate]

/-! ## Claim theorems -/

/-- C1: on one client connection, the background read loop delivers every
incoming reply to the call at the head of the FIFO pending queue, and removes
that head entry exactly when the delivered reply is terminal
(`continues=false`).  Part 1: the k-th incoming reply is delivered to the
queue entry indexed by the number of terminal replies among the first k
replies (so the head entry stays in place across non-terminal replies and
advances by one exactly at each terminal reply).  Part 2: for every
interleaving of submissions and replies with distinct channels, the delivery
log never interleaves two calls: the consecutive-run heads of the delivered-to
channels are pairwise distinct, so each call's replies are contiguous. -/
theorem claim_C1 :
    (∀ (rs : List clientReply) (q : List Nat) (k : Nat),
        k < rs.length → terminalCount (rs.take k) < q.length →
        ∃ ch r, q[terminalCount (rs.take k)]? = some ch ∧ rs[k]? = some r ∧
          (clientRun (rs.map ClientEvent.reply) q)[k]? = some (ch, r)) ∧
    (∀ (evs : List ClientEvent) (q : List Nat),
        (q ++ submits evs).Nodup →
        (blocks ((clientRun evs q).map Prod.fst)).Nodup) := by
  refine ⟨clientRun_delivery, ?_⟩
  intro evs q h
  exact (blocks_clientRun_sublist evs q).nodup h

/-- Witness for C1 at a concrete run: three replies (non-terminal, terminal,
terminal) against queue `[5, 7]`; the third reply goes to channel 7, and the
event-interleaved run has non-interleaved blocks. -/
theorem claim_C1_witness :
    ((2 < ([{ continues := true }, {}, {}] : List clientReply).length ∧
        terminalCount (([{ continues := true }, {}, {}] : List clientReply).take 2) <
          [5, 7].length) ∧
      ∃ ch r, [5, 7][terminalCount (([{ continues := true }, {}, {}] :
            List clientReply).take 2)]? = some ch ∧
        ([{ continues := true }, {}, {}] : List clientReply)[2]? = some r ∧
        (clientRun (([{ continues := true }, {}, {}] :
            List clientReply).map ClientEvent.reply) [5, 7])[2]? = some (ch, r)) ∧
    (([] ++ submits [ClientEvent.submit 5, ClientEvent.reply { continues := true },
        ClientEvent.submit 7, ClientEvent.reply {}, ClientEvent.reply {}]).Nodup ∧
      (blocks ((clientRun [ClientEvent.submit 5, ClientEvent.reply { continues := true },
        ClientEvent.submit 7, ClientEvent.reply {}, ClientEvent.reply {}] []).map
          Prod.fst)).Nodup) :=
  ⟨⟨⟨by decide, by decide⟩,
      claim_C1.1 [{ continues := true }, {}, {}] [5, 7] 2 (by decide) (by decide)⟩,
    ⟨by decide,
      claim_C1.2 [ClientEvent.submit 5, ClientEvent.reply { continues := true },
        ClientEvent.submit 7, ClientEvent.reply {}, ClientEvent.reply {}] [] (by decide)⟩⟩

/-- C2: on the server, for every request that is not oneway and not an
upgrade: if the handler returns without an application-level RPC error (it
returns nil) and sent no terminal reply during handling (it invoked no
`CloseWithReply`), the per-connection loop terminates the connection with the
contract-violation error "varlink: ServerCall.CloseWithReply not called"
instead of reading the next request. -/
theorem claim_C2 (req : ServerRequest) (ops : List HandlerOp)
    (h1 : req.oneway = false) (h2 : req.upgrade = false)
    (h3 : ∀ op ∈ ops, op.isCloseWithReply = false) :
    (serveIteration req ops .ok).outcome = .fatal .closeWithReplyNotCalled := by
  have hd := runOps_done req ops false h3
  cases hro : runOps req ops false with
  | mk done wire =>
    have hdone : done = false := by rw [← hd, hro]
    subst hdone
    simp [serveIteration, h1, h2, hro]

/-- Witness for C2: a non-oneway request whose handler only streams a
non-terminal reply and returns nil terminates the connection with the
contract violation. -/
theorem claim_C2_witness :
    (({ more := true } : ServerRequest).oneway = false ∧
      (∀ op ∈ ([.reply (some ("x"))] : List HandlerOp), op.isCloseWithReply = false)) ∧
    (serveIteration { more := true } [.reply (some ("x"))] .ok).outcome =
      .fatal .closeWithReplyNotCalled :=
  ⟨⟨rfl, by decide⟩,
    claim_C2 { more := true } [.reply (some ("x"))] rfl rfl (by decide)⟩

/-- C3 (code bug): the claim states the codec round-trip
`readMessage (writeMessage v) = v`, but the code's `writeMessage` encodes via
`json.Encoder.Encode`, which appends a newline before the zero byte, so
`readMessage` applied to exactly the bytes `writeMessage` produced reads the
newline (byte 10) where it requires the NUL delimiter and fails with the
framing error "varlink: expected NUL delimiter, got 10".  Evaluation at the
failing input `v = {}` (the empty object): `writeMessage` emits the four bytes
`7B 7D 0A 00` and `readMessage` rejects them, while the same frame without
the newline (the spec's wire format, value then one zero byte) is accepted. -/
theorem claim_C3 :
    writeMessage (Json.obj []) = [lbrace, rbrace, '\n', nulChar] ∧
    readMessage (writeMessage (Json.obj [])) = .error (.badDelimiter 10) ∧
    readMessage (marshalJson (Json.obj []) ++ [nulChar]) =
      .ok ([lbrace, rbrace], []) :=
  ⟨rfl, rfl, rfl⟩

/-- C4: for every server-side call whose request has `oneway=true`, no reply
bytes are ever transmitted on the wire — regardless of how many times the
handler invokes `Reply` or `CloseWithReply` (any `ops`) and also when the
handler returns an application-level RPC error or any other value. -/
theorem claim_C4 (req : ServerRequest) (ops : List HandlerOp) (ret : HandlerRet)
    (h : req.oneway = true) : (serveIteration req ops ret).wire = [] := by
  have hw := runOps_oneway_wire req h ops false
  by_cases hu : req.upgrade
  · simp [serveIteration, hu]
  · cases hro : runOps req ops false with
    | mk done wire =>
      have hwire : wire = [] := by simpa [hro] using hw
      subst hwire
      cases ret with
      | ok => simp [serveIteration, hu, hro, h]
      | otherError msg => simp [serveIteration, hu, hro]
      | serverError name params => simp [serveIteration, hu, hro, h]

/-- Witness for C4: a oneway request whose handler replies twice, closes
twice and returns an RPC error still transmits nothing. -/
theorem claim_C4_witness :
    ({ oneway := true, more := true } : ServerRequest).oneway = true ∧
    (serveIteration { oneway := true, more := true }
      [.reply (some ("a")), .closeWithReply (some ("b")), .closeWithReply none,
        .reply none] (.serverError ("org.example.Err") none)).wire = [] :=
  ⟨rfl, claim_C4 { oneway := true, more := true }
    [.reply (some ("a")), .closeWithReply (some ("b")), .closeWithReply none, .reply none]
    (.serverError ("org.example.Err") none) rfl⟩

/-- C5: a client oneway submission never appends a pending entry to the FIFO
pending queue and never blocks (the modelled call is a total function that
returns synchronously); the only failure observable by the caller is a write
failure (or an already stored connection error), reported synchronously as
the return value.  The deciding code (`Client.DoOneway`) is not under `src/`
and is modelled from the spec. -/
theorem claim_C5 (st : ClientState) (w : Option VErr) :
    (Client.DoOneway st w).2.pending = st.pending ∧
    (st.err = none → (Client.DoOneway st w).1 = w) ∧
    (∀ e, st.err = some e → (Client.DoOneway st w).1 = some e) := by
  unfold Client.DoOneway
  cases h : st.err <;> cases w <;> simp [h]

/-- Witness for C5: a oneway submission on a healthy connection with a
failing write leaves the pending queue `[3]` untouched and reports the write
error synchronously. -/
theorem claim_C5_witness :
    (Client.DoOneway { pending := [3] } (some (.ioErr ("w")))).2.pending = [3] ∧
    ({ pending := [3] } : ClientState).err = none ∧
    (Client.DoOneway { pending := [3] } (some (.ioErr ("w")))).1 = some (.ioErr ("w")) :=
  ⟨(claim_C5 { pending := [3] } (some (.ioErr ("w")))).1, rfl,
    (claim_C5 { pending := [3] } (some (.ioErr ("w")))).2.1 rfl⟩

/-- C6: if a single-reply call (`Client.Do`, which writes a request with
`more=false`) receives a reply whose `continues` flag is true, the client
treats it as a protocol violation: it closes the connection and returns the
error "varlink: received continues=true in response to a more=false request"
to the caller (also when the reply carries an RPC error). -/
theorem claim_C6 (st : CallState) (r : clientReply) (rest : List clientReply)
    (hbuf : st.buf = r :: rest) (hc : r.continues = true) :
    Client.Do st = some ⟨true,
      .err (.protocol ("received continues=true in response to a more=false request"))⟩ := by
  unfold Client.Do ClientCall.nextRecv
  rw [hbuf]
  by_cases he : r.error = "" <;> simp [he, hc]

/-- Witness for C6: a delivered reply with `continues=true` makes `Do` close
the connection and fail. -/
theorem claim_C6_witness :
    ({ buf := [{ continues := true }] } : CallState).buf =
      ({ continues := true } : clientReply) :: [] ∧
    Client.Do { buf := [{ continues := true }] } = some ⟨true,
      .err (.protocol ("received continues=true in response to a more=false request"))⟩ :=
  ⟨rfl, claim_C6 { buf := [{ continues := true }] } { continues := true } [] rfl rfl⟩

/-- C7: a streaming call that is delivered zero-or-more non-terminal replies
followed by one terminal reply (all without RPC errors) yields them from
successive `Next` invocations in exactly arrival order, and every `Next`
after the terminal reply reports end-of-stream (`io.EOF`), not a failure. -/
theorem claim_C7 (body : List clientReply) (last : clientReply) (k : Nat)
    (cl : Bool) (ce : Option VErr)
    (hbody : ∀ r ∈ body, r.continues = true ∧ r.error = "")
    (hlast : last.continues = false) (hlerr : last.error = "") :
    runNext (body.length + 1 + k)
        { chOpen := true, buf := body ++ [last], closed := cl, cerr := ce } =
      (body ++ [last]).map (fun r => NextOut.ok (some (r.parameters.getD ("\x7b\x7d")))) ++
        List.replicate k (.err .eof) := by
  revert hbody
  induction body with
  | nil =>
    intro _
    have h1 : ([] : List clientReply).length + 1 + k = k + 1 := by simp [Nat.add_comm]
    rw [h1]
    simp [runNext, ClientCall.Next, ClientCall.nextRecv, hlast, hlerr,
      runNext_closedHandle k { chOpen := false, buf := [], closed := cl, cerr := ce } rfl]
  | cons r body ih =>
    intro hbody
    have hr := hbody r (List.mem_cons_self _ _)
    have hlen : (r :: body).length + 1 + k = (body.length + 1 + k) + 1 := by
      simp [List.length_cons]; omega
    rw [hlen]
    have ih' := ih (fun x hx => hbody x (List.mem_cons_of_mem _ hx))
    simp [runNext, ClientCall.Next, ClientCall.nextRecv, hr.1, hr.2, ih']

/-- Witness for C7: replies `R1(continues=true)`, `R2(continues=true)`,
`R3(continues=false)` are yielded in that order by three `Next` calls and a
fourth `Next` reports end-of-stream. -/
theorem claim_C7_witness :
    ((∀ r ∈ ([{ parameters := some ("1"), continues := true },
        { parameters := some ("2"), continues := true }] : List clientReply),
        r.continues = true ∧ r.error = "") ∧
      ({ parameters := some ("3") } : clientReply).continues = false) ∧
    runNext 4
      { chOpen := true,
        buf := [{ parameters := some ("1"), continues := true },
                { parameters := some ("2"), continues := true },
                { parameters := some ("3") }],
        closed := true, cerr := none } =
      [.ok (some ("1")), .ok (some ("2")), .ok (some ("3")), .err .eof] :=
  ⟨⟨by decide, rfl⟩, by
    have h := claim_C7 [{ parameters := some ("1"), continues := true },
      { parameters := some ("2"), continues := true }] { parameters := some ("3") } 1
      true none (by decide) rfl rfl
    simpa using h⟩

/-- C10 (implicit): when the client connection is closed locally (the read
loop's read fails with `net.ErrClosed`), the shutdown path records no
connection error and closes every pending delivery channel; a caller blocked
in `Do` or `Next` at that moment then observes a closed channel with
`c.err = nil` and returns a nil error — `ok none`, not a failure — with no
reply delivered and its output value left unmodified. -/
theorem claim_C10 (pending : List Nat) :
    readLoopFinalize { pending := pending, err := none } .netClosed =
      ({ pending := [], err := none }, pending) ∧
    ClientCall.Next { chOpen := true, buf := [], closed := true, cerr := none } =
      some (.ok none, { chOpen := false, buf := [], closed := true, cerr := none }) ∧
    Client.Do { chOpen := true, buf := [], closed := true, cerr := none } =
      some ⟨false, .ok none⟩ :=
  ⟨rfl, rfl, rfl⟩

/-- C8: when the parser reads a parenthesized list, an immediate `)` yields
an empty struct; otherwise, after the first field-candidate identifier, the
next token alone fixes the interpretation — `,` or `)` makes the entire list
an enum of bare identifiers, `:` makes it a struct of name/type pairs — and
switching syntaxes later in the same list is a syntax error.  Conjuncts:
`(idle, busy)` parses to `Enum{idle, busy}`, `(state: string)` parses to
`Struct{state: String}`, `()` parses to an empty `Struct`; once the list is
an enum, a `:` after a later member is a syntax error; once it is a struct,
anything but `:` after a later member name is a syntax error. -/
theorem claim_C8 :
    (varlinkdef.readStructOrEnum ("()".toList) =
      .ok (⟨.struct, false, none, "", [], []⟩, [])) ∧
    (varlinkdef.readStructOrEnum ("(idle, busy)".toList) =
      .ok (⟨.enum, false, none, "", [], ["idle", "busy"]⟩, [])) ∧
    (varlinkdef.readStructOrEnum ("(state: string)".toList) =
      .ok (⟨.struct, false, none, "",
        [("state", ⟨.string, false, none, "", [], []⟩)], []⟩, [])) ∧
    (∀ (fuel : Nat) (typ : varlinkdef.VType) (s s1 s2 : List Char) (name : String),
      typ.kind = .enum →
      varlinkdef.readToken s = .ok (name, s1) →
      varlinkdef.isFieldName name = true →
      varlinkdef.readToken s1 = .ok (":", s2) →
      varlinkdef.structOrEnumLoop (fuel + 1) typ s =
        .error (.syn ("expected , or ), got " ++ ":"))) ∧
    (∀ (fuel : Nat) (typ : varlinkdef.VType) (s s1 s2 : List Char) (name sep : String),
      typ.kind = .struct →
      varlinkdef.readToken s = .ok (name, s1) →
      varlinkdef.isFieldName name = true →
      varlinkdef.readToken s1 = .ok (sep, s2) →
      sep ≠ ":" →
      varlinkdef.structOrEnumLoop (fuel + 1) typ s =
        .error (.syn ("expected :, got " ++ sep))) := by
  refine ⟨rfl, rfl, rfl, ?_, ?_⟩
  · intro fuel typ s s1 s2 name hkind ht hfn hsep
    simp only [varlinkdef.structOrEnumLoop, ht, hsep, hkind, hfn]
    simp +decide
  · intro fuel typ s s1 s2 name sep hkind ht hfn hsep hne
    simp only [varlinkdef.structOrEnumLoop, ht, hsep, hkind, hfn]
    simp [hne]

/-- C9 counterexample: the claim says the parser accepts as field names
exactly the lowercase-leading identifiers, but `isFieldName` also accepts
uppercase-leading identifiers: `"A"` is accepted by the code, is not
lowercase-leading, and `(A)` parses successfully to `Enum{A}`. -/
theorem claim_C9_counterexample :
    varlinkdef.isFieldName ("A") = true ∧
    varlinkdef.specFieldName ("A") = false ∧
    varlinkdef.readStructOrEnum ("(A)".toList) =
      .ok (⟨.enum, false, none, "", [], ["A"]⟩, []) :=
  ⟨by decide, by decide, rfl⟩

/-- C9 (amended): the parser accepts as field names (and enum variant
candidates) exactly the identifiers that begin with an ASCII letter of either
case and continue with letters, digits or underscores; a parenthesized-list
member whose first token does not have this shape (and is not the `)` closing
an empty list) is rejected with the syntax error "expected field name". -/
theorem claim_C9 :
    (∀ s, varlinkdef.isFieldName s = varlinkdef.amendedFieldName s) ∧
    (∀ (fuel : Nat) (typ : varlinkdef.VType) (s s1 : List Char) (token : String),
      varlinkdef.readToken s = .ok (token, s1) →
      varlinkdef.isFieldName token = false →
      ¬(token = ")" ∧ typ.kind = varlinkdef.Kind.invalid) →
      varlinkdef.structOrEnumLoop (fuel + 1) typ s =
        .error (.syn ("expected field name, got " ++ token))) := by
  refine ⟨fun s => rfl, ?_⟩
  intro fuel typ s s1 token ht hfn hne
  simp only [varlinkdef.structOrEnumLoop, ht]
  rw [if_neg hne]
  simp [hfn]

/-- Witness for C8's general conjuncts: an enum list continued with `busy:`
fails, and a struct list continued with `busy,` fails. -/
theorem claim_C8_witness :
    (varlinkdef.readToken ("busy: int)".toList) = .ok ("busy", (": int)").toList) ∧
      varlinkdef.isFieldName ("busy") = true ∧
      varlinkdef.readToken ((": int)").toList) = .ok (":", (" int)").toList)) ∧
    varlinkdef.structOrEnumLoop (5 + 1) ⟨.enum, false, none, "", [], ["idle"]⟩
        ("busy: int)".toList) = .error (.syn ("expected , or ), got " ++ ":")) ∧
    varlinkdef.structOrEnumLoop (5 + 1) ⟨.struct, false, none, "", [], []⟩
        ("busy, x: int)".toList) = .error (.syn ("expected :, got " ++ ",")) :=
  ⟨⟨rfl, by decide, rfl⟩,
    claim_C8.2.2.2.1 5 ⟨.enum, false, none, "", [], ["idle"]⟩
      ("busy: int)".toList) ((": int)").toList) ((" int)").toList) "busy"
      rfl rfl (by decide) rfl,
    claim_C8.2.2.2.2 5 ⟨.struct, false, none, "", [], []⟩
      ("busy, x: int)".toList) ((", x: int)").toList) ((" x: int)").toList) "busy" ","
      rfl rfl (by decide) rfl (by decide)⟩

/-- Witness for C9's general conjunct: the member `9bad` is not a field name
and is rejected with a syntax error. -/
theorem claim_C9_witness :
    (varlinkdef.readToken ("9bad)".toList) = .ok ("9bad", ")".toList) ∧
      varlinkdef.isFieldName ("9bad") = false ∧
      varlinkdef.isFieldName ("state") = varlinkdef.amendedFieldName ("state")) ∧
    varlinkdef.structOrEnumLoop (3 + 1) varlinkdef.VType.zero ("9bad)".toList) =
      .error (.syn ("expected field name, got " ++ "9bad")) :=
  ⟨⟨rfl, by decide, claim_C9.1 ("state")⟩,
    claim_C9.2 3 varlinkdef.VType.zero ("9bad)".toList) (")".toList) "9bad"
      rfl (by decide) (by decide)⟩

end Varlink
